import Mathlib

/-!
Verification of the dFBA notebook (`documentation_builder/dfba.ipynb`).

The notebook couples an ODE integrator to a repeatedly re-solved LP.  We give
a shallow embedding of the notebook's own code: `add_dynamic_bounds`,
`dynamic_system`, `infeasible_event` and the `solve_ivp` invocation.  The
cobrapy machinery the notebook calls (the model context manager, the
`cobra.util` LP helpers) and scipy's `solve_ivp` are not part of the source
tree; they are modelled from the specification where a claim depends on them,
as marked in the doc comments below.  Machine floats are embedded as exact
rationals.
-/

namespace DFBA

/-- A reaction of the metabolic model, reduced to the state the notebook
touches: its flux bounds. -/
structure Reaction where
  lower_bound : ℚ
  upper_bound : ℚ
deriving DecidableEq

/-- The cobra model state relevant to the notebook: reactions keyed by their
identifier, plus the objective and extra-constraint state that the LP helpers
mutate inside the `with model` blocks. -/
structure Model where
  reactions : List (String × Reaction)
  objective : String
  constraints : List String
deriving DecidableEq

/-- Look a reaction up by its identifier (`model.reactions.<id>` access). -/
def lookupReaction (rid : String) : List (String × Reaction) → Option Reaction
  | [] => none
  | p :: l => if p.1 = rid then some p.2 else lookupReaction rid l

/-- The lower bound of reaction `rid` of the model, when the reaction exists. -/
def Model.lb (m : Model) (rid : String) : Option ℚ :=
  (lookupReaction rid m.reactions).map Reaction.lower_bound

/-- The upper bound of reaction `rid` of the model, when the reaction exists. -/
def Model.ub (m : Model) (rid : String) : Option ℚ :=
  (lookupReaction rid m.reactions).map Reaction.upper_bound

/-- Embeds `model.reactions.<rid>.lower_bound = v`: update the lower bound of the
named reaction, leaving everything else in place. -/
def setLowerBound (m : Model) (rid : String) (v : ℚ) : Model :=
  { m with
    reactions := m.reactions.map fun p =>
      if p.1 = rid then (p.1, { p.2 with lower_bound := v }) else p }

/-- Embeds `glucose_max_import = -10 * glucose / (5 + glucose)` from
`add_dynamic_bounds` (cell 7 of the notebook). -/
def glucose_max_import (glucose : ℚ) : ℚ :=
  -10 * glucose / (5 + glucose)

/-- Embeds `add_dynamic_bounds(model, y)`: use the external concentrations
`y = (biomass, glucose)` to bound the uptake flux of glucose. -/
def add_dynamic_bounds (model : Model) (y : ℚ × ℚ) : Model :=
  let glucose := y.2
  setLowerBound model "EX_glc__D_e" (glucose_max_import glucose)

theorem lookupReaction_setLB (l : List (String × Reaction)) (rid r : String) (v : ℚ) :
    lookupReaction r (l.map fun p =>
        if p.1 = rid then (p.1, { p.2 with lower_bound := v }) else p) =
      if r = rid then
        (lookupReaction r l).map fun rx => { rx with lower_bound := v }
      else lookupReaction r l := by
  induction l with
  | nil => by_cases h : r = rid <;> simp [lookupReaction, h]
  | cons p l ih =>
    by_cases hp : p.1 = rid <;> by_cases hr : r = rid <;>
      simp [lookupReaction, hp, hr, ih] <;>
      by_cases hpr : p.1 = r <;> simp_all [lookupReaction]

theorem lb_setLowerBound (m : Model) (rid r : String) (v : ℚ) :
    (setLowerBound m rid v).lb r =
      if r = rid then (m.lb r).map fun _ => v else m.lb r := by
  unfold Model.lb setLowerBound
  rw [lookupReaction_setLB]
  by_cases h : r = rid
  · simp only [h, if_pos rfl, Option.map_map]
    cases lookupReaction rid m.reactions <;> rfl
  · simp [h]

theorem ub_setLowerBound (m : Model) (rid r : String) (v : ℚ) :
    (setLowerBound m rid v).ub r = m.ub r := by
  unfold Model.ub setLowerBound
  rw [lookupReaction_setLB]
  by_cases h : r = rid
  · simp only [h, if_pos rfl, Option.map_map]
    cases lookupReaction rid m.reactions <;> rfl
  · simp [h]

theorem glucose_max_import_nonpos (g : ℚ) (hg : 0 ≤ g) :
    glucose_max_import g ≤ 0 := by
  have h5 : (0 : ℚ) < 5 + g := by linarith
  unfold glucose_max_import
  rw [div_le_iff₀ h5]
  nlinarith

theorem glucose_max_import_ge (g : ℚ) (hg : 0 ≤ g) :
    -10 ≤ glucose_max_import g := by
  have h5 : (0 : ℚ) < 5 + g := by linarith
  unfold glucose_max_import
  rw [le_div_iff₀ h5]
  nlinarith

theorem glucose_max_import_antitone (g1 g2 : ℚ) (h1 : 0 ≤ g1) (h12 : g1 ≤ g2) :
    glucose_max_import g2 ≤ glucose_max_import g1 := by
  have h5 : (0 : ℚ) < 5 + g1 := by linarith
  have h5' : (0 : ℚ) < 5 + g2 := by linarith
  unfold glucose_max_import
  rw [div_le_div_iff₀ h5' h5]
  nlinarith

/-- Modelled from the spec: the `cobra.util` LP helpers
(`add_lp_feasibility`, `fix_objective_as_constraint`,
`add_lexicographic_constraints`) are cobrapy library code that is not part of
the source tree; the spec only says the notebook "solve[s] a
feasibility/optimization problem at fixed bounds" and that the event function
"reports how far a trial state is from LP feasibility" (zero when feasible,
positive otherwise).  We therefore model them as an abstract interface: each
helper may mutate the model and `fix_objective_as_constraint` returns the
nonnegative feasibility distance, while `add_lexicographic_constraints`
returns one optimal flux value per requested objective. -/
structure CobraUtil where
  add_lp_feasibility : Model → Model
  fix_objective_as_constraint : Model → ℚ × Model
  add_lexicographic_constraints : Model → List String → List String → List ℚ × Model
  feasibility_nonneg : ∀ m, 0 ≤ (fix_objective_as_constraint m).1
  lex_values_length : ∀ m objs dirs,
    ((add_lexicographic_constraints m objs dirs).1).length = objs.length

/-- Modelled from the spec: cobrapy's model context manager (`with model:`)
is library code not in the source tree; per the spec the model is
"temporarily mutated and restored per evaluation".  The body receives the
current model and may mutate it; on exit the model is restored to its entry
state, and only the body's computed value survives. -/
def with_model {α : Type} (model : Model) (body : Model → α × Model) : α × Model :=
  ((body model).1, model)

/-- The tqdm progress bar state held in `dynamic_system.pbar`: an update
count and the description text last displayed. -/
structure PBar where
  count : ℕ
  description : String
deriving DecidableEq

/-- The description set by `pbar.set_description('t = {:.3f}'.format(t))`
(the decimal float formatting is display-only and rendered via `toString`). -/
def pbar_description (t : ℚ) : String :=
  "t = " ++ toString t

/-- The two lexicographic objectives passed to
`add_lexicographic_constraints` in `dynamic_system`. -/
def lexicographic_objectives : List String :=
  ["Biomass_Ecoli_core", "EX_glc__D_e"]

/-- Embeds `dynamic_system(t, y)` (cell 7): calculate the time derivative of the
external species.  The global model and progress bar are threaded
explicitly; the result is `((fluxes, pbar), model)` after the call. -/
def dynamic_system (U : CobraUtil) (model : Model) (pbar : Option PBar)
    (t : ℚ) (y : ℚ × ℚ) : (List ℚ × Option PBar) × Model :=
  let biomass := y.1
  let (lexvals, model) := with_model model fun m =>
    let m := add_dynamic_bounds m y
    let m := U.add_lp_feasibility m
    let (_feasibility, m) := U.fix_objective_as_constraint m
    U.add_lexicographic_constraints m lexicographic_objectives ["max", "max"]
  let fluxes := lexvals.map fun v => v * biomass
  let pbar := match pbar with
    | none => none
    | some p => some { count := p.count + 1, description := pbar_description t }
  ((fluxes, pbar), model)

/-- Embeds `infeasible_event.epsilon = 1E-6`. -/
def infeasible_event_epsilon : ℚ := 1 / 1000000

/-- Embeds `infeasible_event.direction = 1`. -/
def infeasible_event_direction : Int := 1

/-- Embeds `infeasible_event.terminal = True`. -/
def infeasible_event_terminal : Bool := true

/-- Embeds `infeasible_event(t, y)` (cell 7): re-solve the LP at the bounds set
from `y` and return `feasibility - epsilon`, restoring the model. -/
def infeasible_event (U : CobraUtil) (model : Model) (t : ℚ) (y : ℚ × ℚ) :
    ℚ × Model :=
  let (feasibility, model) := with_model model fun m =>
    let m := add_dynamic_bounds m y
    let m := U.add_lp_feasibility m
    U.fix_objective_as_constraint m
  (feasibility - infeasible_event_epsilon, model)

/-- The LP feasibility distance computed at the bounds set from `y`: the
value `fix_objective_as_constraint` returns after `add_dynamic_bounds` and
`add_lp_feasibility` have been applied. -/
def lp_feasibility_at (U : CobraUtil) (model : Model) (y : ℚ × ℚ) : ℚ :=
  (U.fix_objective_as_constraint (U.add_lp_feasibility (add_dynamic_bounds model y))).1

/-- The exchange-flux vector produced by the lexicographic LP solve at the
bounds set from `y`, before scaling by biomass. -/
def lexicographic_fluxes_at (U : CobraUtil) (model : Model) (y : ℚ × ℚ) : List ℚ :=
  (U.add_lexicographic_constraints
    (U.fix_objective_as_constraint (U.add_lp_feasibility (add_dynamic_bounds model y))).2
    lexicographic_objectives ["max", "max"]).1

/-- Modelled from the spec: scipy's event detection is external library code
(a declared non-goal).  Per the spec the integrator stops "at the first time
its value crosses zero from negative to positive" for a terminal event with
`direction = 1`; `direction = -1` is the symmetric downward crossing and
`direction = 0` reports either. -/
def event_triggers (dir : Int) (prev cur : ℚ) : Bool :=
  if dir = 1 then decide (prev < 0) && decide (0 ≤ cur)
  else if dir = -1 then decide (0 < prev) && decide (cur ≤ 0)
  else (decide (prev < 0) && decide (0 ≤ cur)) ||
    (decide (0 < prev) && decide (cur ≤ 0))

/-- Modelled from the spec: the external integrator walks the trajectory
sample by sample, evaluating the event function at each sample; when the
event is terminal and triggers against the previous value, the integration
stops at that sample and the rest of the trajectory is discarded. -/
def integrate_from (dir : Int) (terminal : Bool) (evt : ℚ → ℚ × ℚ → ℚ) :
    ℚ → List (ℚ × (ℚ × ℚ)) → List (ℚ × (ℚ × ℚ))
  | _, [] => []
  | prev, s :: rest =>
    let cur := evt s.1 s.2
    if terminal && event_triggers dir prev cur then [s]
    else s :: integrate_from dir terminal evt cur rest

/-- The index of the first sample at which the event triggers against the
previous event value, if any. -/
def first_crossing (dir : Int) (evt : ℚ → ℚ × ℚ → ℚ) :
    ℚ → List (ℚ × (ℚ × ℚ)) → Option ℕ
  | _, [] => none
  | prev, s :: rest =>
    let cur := evt s.1 s.2
    if event_triggers dir prev cur then some 0
    else (first_crossing dir evt cur rest).map (· + 1)

theorem integrate_from_terminal_eq (dir : Int) (evt : ℚ → ℚ × ℚ → ℚ)
    (prev : ℚ) (samples : List (ℚ × (ℚ × ℚ))) :
    integrate_from dir true evt prev samples =
      match first_crossing dir evt prev samples with
      | none => samples
      | some i => samples.take (i + 1) := by
  induction samples generalizing prev with
  | nil => rfl
  | cons s rest ih =>
    simp only [integrate_from, first_crossing, Bool.true_and]
    by_cases h : event_triggers dir prev (evt s.1 s.2) = true
    · simp [h]
    · simp only [h, if_neg, Bool.false_eq_true, not_false_iff, ih]
      cases first_crossing dir evt (evt s.1 s.2) rest <;>
        simp [List.take]

/-- Embeds `np.linspace(a, b, n)`: `n` points from `a` to `b` inclusive, with step
`(b - a) / (n - 1)`. -/
def np_linspace (a b : ℚ) (n : ℕ) : List ℚ :=
  (List.range n).map fun i : ℕ => a + (b - a) * (i : ℚ) / ((n : ℚ) - 1)

/-- Embeds `ts = np.linspace(0, 15, 100)` (cell 9). -/
def ts : List ℚ := np_linspace 0 15 100

/-- Embeds `y0 = [0.1, 10]` (cell 9). -/
def y0 : List ℚ := [1 / 10, 10]

/-- Binary minimum of two rationals, written out so that it evaluates by
kernel reduction. -/
def rat_min (a b : ℚ) : ℚ := if a ≤ b then a else b

/-- Binary maximum of two rationals, written out so that it evaluates by
kernel reduction. -/
def rat_max (a b : ℚ) : ℚ := if a ≤ b then b else a

/-- Embeds `np.ndarray.min` on the embedded array. -/
def np_min : List ℚ → ℚ
  | [] => 0
  | x :: xs => xs.foldl rat_min x

/-- Embeds `np.ndarray.max` on the embedded array. -/
def np_max : List ℚ → ℚ
  | [] => 0
  | x :: xs => xs.foldl rat_max x

/-- Modelled from the spec: `scipy.integrate.solve_ivp` is an external
integrator (implementing one is a declared non-goal).  We model only its
call interface: it receives the right-hand-side function, the event
functions, the time span, the initial state, the evaluation times, the
relative and absolute tolerances and the method name, and returns a solution
trajectory object of some type `σ`. -/
structure Integrator (σ : Type) where
  solve_ivp : (ℚ → ℚ × ℚ → List ℚ) → List (ℚ → ℚ × ℚ → ℚ) → ℚ × ℚ →
    List ℚ → List ℚ → ℚ → ℚ → String → σ

/-- The `solve_ivp` call of cell 9, with the notebook's arguments. -/
def sol {σ : Type} (I : Integrator σ) (U : CobraUtil) (model : Model) : σ :=
  I.solve_ivp
    (fun t y => ((dynamic_system U model none t y).1).1)
    [fun t y => (infeasible_event U model t y).1]
    (np_min ts, np_max ts)
    y0
    ts
    (1 / 1000000)
    (1 / 100000000)
    "BDF"

theorem rat_min_le_left (a b : ℚ) : rat_min a b ≤ a := by
  unfold rat_min
  by_cases h : a ≤ b <;> simp [h]
  linarith [not_le.mp h]

theorem rat_min_eq_left (a b : ℚ) (h : a ≤ b) : rat_min a b = a := by
  simp [rat_min, h]

theorem rat_max_le (a b c : ℚ) (ha : a ≤ c) (hb : b ≤ c) : rat_max a b ≤ c := by
  unfold rat_max
  by_cases h : a ≤ b <;> simp [h, ha, hb]

theorem left_le_rat_max (a b : ℚ) : a ≤ rat_max a b := by
  unfold rat_max
  by_cases h : a ≤ b <;> simp [h]

theorem right_le_rat_max (a b : ℚ) : b ≤ rat_max a b := by
  unfold rat_max
  by_cases h : a ≤ b <;> simp [h]
  linarith [not_le.mp h]

theorem foldl_rat_min_eq (l : List ℚ) (acc : ℚ) (h : ∀ y ∈ l, acc ≤ y) :
    l.foldl rat_min acc = acc := by
  induction l with
  | nil => rfl
  | cons x t ih =>
    have hx : rat_min acc x = acc := rat_min_eq_left acc x (h x (by simp))
    simp only [List.foldl, hx]
    exact ih fun y hy => h y (by simp [hy])

theorem foldl_rat_max_le (l : List ℚ) (acc b : ℚ) (hacc : acc ≤ b)
    (h : ∀ y ∈ l, y ≤ b) : l.foldl rat_max acc ≤ b := by
  induction l generalizing acc with
  | nil => exact hacc
  | cons x t ih =>
    simp only [List.foldl]
    exact ih (rat_max acc x) (rat_max_le acc x b hacc (h x (by simp)))
      fun y hy => h y (by simp [hy])

theorem le_foldl_rat_max (l : List ℚ) (acc : ℚ) : acc ≤ l.foldl rat_max acc := by
  induction l generalizing acc with
  | nil => exact le_refl acc
  | cons x t ih =>
    simp only [List.foldl]
    exact le_trans (left_le_rat_max acc x) (ih (rat_max acc x))

theorem mem_le_foldl_rat_max (l : List ℚ) (acc y : ℚ) (hy : y ∈ l) :
    y ≤ l.foldl rat_max acc := by
  induction l generalizing acc with
  | nil => simp at hy
  | cons x t ih =>
    simp only [List.foldl]
    rcases List.mem_cons.mp hy with h | h
    · rw [h]
      exact le_trans (right_le_rat_max acc x) (le_foldl_rat_max t _)
    · exact ih _ h

theorem np_min_eq_of (l : List ℚ) (a : ℚ) (hhead : l.head? = some a)
    (h : ∀ y ∈ l, a ≤ y) : np_min l = a := by
  cases l with
  | nil => simp at hhead
  | cons x xs =>
    have hx : x = a := by simpa using hhead
    subst hx
    exact foldl_rat_min_eq xs x fun y hy => h y (by simp [hy])

theorem np_max_eq_of (l : List ℚ) (b : ℚ) (hb : b ∈ l)
    (h : ∀ y ∈ l, y ≤ b) : np_max l = b := by
  cases l with
  | nil => simp at hb
  | cons x xs =>
    refine le_antisymm
      (foldl_rat_max_le xs x b (h x (by simp)) fun y hy => h y (by simp [hy])) ?_
    rcases List.mem_cons.mp hb with hbx | hbxs
    · exact hbx ▸ le_foldl_rat_max xs x
    · exact mem_le_foldl_rat_max xs x b hbxs

theorem ts_mem_iff (x : ℚ) :
    x ∈ ts ↔ ∃ i : ℕ, i < 100 ∧ x = 15 * i / 99 := by
  unfold ts np_linspace
  constructor
  · intro hx
    obtain ⟨i, hi, hfx⟩ := List.mem_map.mp hx
    refine ⟨i, List.mem_range.mp hi, ?_⟩
    rw [← hfx]
    norm_num
  · rintro ⟨i, hi, rfl⟩
    exact List.mem_map.mpr ⟨i, List.mem_range.mpr hi, by norm_num⟩

theorem ts_mem_lower (x : ℚ) (hx : x ∈ ts) : 0 ≤ x := by
  obtain ⟨i, _, rfl⟩ := (ts_mem_iff x).mp hx
  positivity

theorem ts_mem_upper (x : ℚ) (hx : x ∈ ts) : x ≤ 15 := by
  obtain ⟨i, hi, rfl⟩ := (ts_mem_iff x).mp hx
  have hle : (i : ℚ) ≤ 99 := by
    exact_mod_cast Nat.le_of_lt_succ hi
  rw [div_le_iff₀ (by norm_num : (0:ℚ) < 99)]
  nlinarith

theorem ts_min_eq : np_min ts = 0 := by
  refine np_min_eq_of ts 0 ?_ ts_mem_lower
  unfold ts np_linspace
  rw [show List.range 100 = 0 :: (List.range 99).map Nat.succ from
    List.range_succ_eq_map 99]
  simp only [List.map_cons, List.head?_cons, Option.some.injEq]
  norm_num

theorem ts_max_eq : np_max ts = 15 := by
  refine np_max_eq_of ts 15 ?_ ts_mem_upper
  refine (ts_mem_iff 15).mpr ⟨99, by norm_num, by norm_num⟩

theorem ts_length_eq : ts.length = 100 := by
  unfold ts np_linspace
  rw [List.length_map, List.length_range]

theorem ts_spacing (i : ℕ) (h : i + 1 < ts.length) :
    ts[i + 1] - ts[i] = 15 / 99 := by
  have hlen : i + 1 < 100 := by simpa [ts_length_eq] using h
  unfold ts np_linspace
  rw [List.getElem_map, List.getElem_map, List.getElem_range, List.getElem_range]
  push_cast
  field_simp
  ring

/-- A concrete model carrying the glucose exchange reaction (default
cobrapy exchange bounds) and another reaction, used to evaluate the theorems
at explicit inputs. -/
def mGlc : Model where
  reactions :=
    [("EX_glc__D_e", { lower_bound := -10, upper_bound := 1000 }),
     ("ATPM", { lower_bound := 8 + 39 / 100, upper_bound := 1000 })]
  objective := "Biomass_Ecoli_core"
  constraints := []

/-- A concrete trivial LP oracle: every model is reported exactly feasible
and every lexicographic objective gets optimal flux `0`.  Used to evaluate
the theorems at explicit inputs. -/
def trivialLP : CobraUtil where
  add_lp_feasibility := id
  fix_objective_as_constraint := fun m => (0, m)
  add_lexicographic_constraints := fun m objs _ => (objs.map fun _ => 0, m)
  feasibility_nonneg := fun _ => le_refl 0
  lex_values_length := fun _ objs _ => List.length_map objs _

/-- A concrete trivial integrator, used to evaluate the theorems at explicit
inputs. -/
def trivialIntegrator : Integrator Unit :=
  ⟨fun _ _ _ _ _ _ _ _ => ()⟩

/-- C1: for every state `y = (biomass, glucose)`, `add_dynamic_bounds(model,
y)` sets the lower bound of the `EX_glc__D_e` reaction to
`-10 * glucose / (5 + glucose)`, and for every `glucose ≥ 0` this value lies
in the interval `[-10, 0]`. -/
theorem c1_add_dynamic_bounds_sets_glc_lb (m : Model) (biomass glucose q : ℚ)
    (hmem : m.lb "EX_glc__D_e" = some q) (hg : 0 ≤ glucose) :
    (add_dynamic_bounds m (biomass, glucose)).lb "EX_glc__D_e" =
      some (-10 * glucose / (5 + glucose)) ∧
    -10 ≤ -10 * glucose / (5 + glucose) ∧
    -10 * glucose / (5 + glucose) ≤ 0 := by
  refine ⟨?_, glucose_max_import_ge glucose hg, glucose_max_import_nonpos glucose hg⟩
  show (setLowerBound m "EX_glc__D_e" (glucose_max_import glucose)).lb "EX_glc__D_e" = _
  rw [lb_setLowerBound, if_pos rfl, hmem]
  rfl

/-- C1 witness: the theorem evaluated at a concrete model and state. -/
theorem c1_witness :
    mGlc.lb "EX_glc__D_e" = some (-10) ∧ (0 : ℚ) ≤ 1 ∧
    ((add_dynamic_bounds mGlc (1, 1)).lb "EX_glc__D_e" =
        some (-10 * 1 / (5 + 1)) ∧
      (-10 : ℚ) ≤ -10 * 1 / (5 + 1) ∧ (-10 * 1 / (5 + 1) : ℚ) ≤ 0) := by
  have hmem : mGlc.lb "EX_glc__D_e" = some (-10) := by
    simp [mGlc, Model.lb, lookupReaction]
  exact ⟨hmem, by norm_num,
    c1_add_dynamic_bounds_sets_glc_lb mGlc 1 1 (-10) hmem (by norm_num)⟩

/-- C8: the uptake-rate bound is monotone and saturating in the glucose
concentration: for `0 ≤ g1 ≤ g2` the bound at `g2` is at most the bound at
`g1`, both bounds are nonpositive, and neither is below `-10`. -/
theorem c8_glucose_bound_monotone_saturating (g1 g2 : ℚ)
    (h1 : 0 ≤ g1) (h12 : g1 ≤ g2) :
    glucose_max_import g2 ≤ glucose_max_import g1 ∧
    glucose_max_import g1 ≤ 0 ∧ glucose_max_import g2 ≤ 0 ∧
    -10 ≤ glucose_max_import g1 ∧ -10 ≤ glucose_max_import g2 :=
  ⟨glucose_max_import_antitone g1 g2 h1 h12,
   glucose_max_import_nonpos g1 h1,
   glucose_max_import_nonpos g2 (le_trans h1 h12),
   glucose_max_import_ge g1 h1,
   glucose_max_import_ge g2 (le_trans h1 h12)⟩

/-- C8 witness: the theorem evaluated at concrete concentrations. -/
theorem c8_witness :
    (0 : ℚ) ≤ 1 ∧ (1 : ℚ) ≤ 4 ∧
    (glucose_max_import 4 ≤ glucose_max_import 1 ∧
      glucose_max_import 1 ≤ 0 ∧ glucose_max_import 4 ≤ 0 ∧
      -10 ≤ glucose_max_import 1 ∧ -10 ≤ glucose_max_import 4) :=
  ⟨by norm_num, by norm_num,
    c8_glucose_bound_monotone_saturating 1 4 (by norm_num) (by norm_num)⟩

/-- C9: `add_dynamic_bounds(model, y)` modifies only the lower bound of
`EX_glc__D_e`: all upper bounds, the lower bound of every other reaction,
the objective and the constraint state are unchanged, and the biomass
component of `y` has no effect on the result. -/
theorem c9_add_dynamic_bounds_frame (m : Model) (b b' g : ℚ) (r : String)
    (hr : r ≠ "EX_glc__D_e") :
    (∀ s : String, (add_dynamic_bounds m (b, g)).ub s = m.ub s) ∧
    (add_dynamic_bounds m (b, g)).lb r = m.lb r ∧
    (add_dynamic_bounds m (b, g)).objective = m.objective ∧
    (add_dynamic_bounds m (b, g)).constraints = m.constraints ∧
    add_dynamic_bounds m (b, g) = add_dynamic_bounds m (b', g) := by
  refine ⟨fun s => ub_setLowerBound m "EX_glc__D_e" s (glucose_max_import g),
    ?_, rfl, rfl, rfl⟩
  show (setLowerBound m "EX_glc__D_e" (glucose_max_import g)).lb r = _
  rw [lb_setLowerBound, if_neg hr]

/-- C9 witness: the theorem evaluated at a concrete model with a concrete
other reaction. -/
theorem c9_witness :
    "ATPM" ≠ "EX_glc__D_e" ∧
    ((∀ s : String, (add_dynamic_bounds mGlc (1, 3)).ub s = mGlc.ub s) ∧
      (add_dynamic_bounds mGlc (1, 3)).lb "ATPM" = mGlc.lb "ATPM" ∧
      (add_dynamic_bounds mGlc (1, 3)).objective = mGlc.objective ∧
      (add_dynamic_bounds mGlc (1, 3)).constraints = mGlc.constraints ∧
      add_dynamic_bounds mGlc (1, 3) = add_dynamic_bounds mGlc (2, 3)) :=
  ⟨by decide, c9_add_dynamic_bounds_frame mGlc 1 2 3 "ATPM" (by decide)⟩

/-- C2: for every time `t` and state `y`, `dynamic_system(t, y)` returns the
exchange-flux vector of the lexicographic LP solve at the bounds set from
`y`, multiplied componentwise by the biomass concentration `y.1`; this
product is exactly the returned ODE right-hand side. -/
theorem c2_dynamic_system_rhs (U : CobraUtil) (m : Model) (pbar : Option PBar)
    (t : ℚ) (y : ℚ × ℚ) :
    ((dynamic_system U m pbar t y).1).1 =
      (lexicographic_fluxes_at U m y).map fun v => v * y.1 := rfl

/-- C4: evaluating `dynamic_system` or `infeasible_event` leaves the shared
model as it was before the call: the returned model state (hence every
reaction bound, the objective and the constraint set) equals the input
model, because the mutation happens inside the restoring `with model`
context. -/
theorem c4_model_restored (U : CobraUtil) (m : Model) (pbar : Option PBar)
    (t : ℚ) (y : ℚ × ℚ) :
    (dynamic_system U m pbar t y).2 = m ∧
    (infeasible_event U m t y).2 = m ∧
    (∀ r : String, ((dynamic_system U m pbar t y).2).lb r = m.lb r ∧
      ((dynamic_system U m pbar t y).2).ub r = m.ub r) ∧
    ((dynamic_system U m pbar t y).2).objective = m.objective ∧
    ((dynamic_system U m pbar t y).2).constraints = m.constraints :=
  ⟨rfl, rfl, fun _ => ⟨rfl, rfl⟩, rfl, rfl⟩

/-- C10: the ODE right-hand side is autonomous: the flux vector (and the
model state) `dynamic_system` produces does not depend on the time argument,
which influences only the progress-bar display; with no progress bar
attached, the whole result is time-independent. -/
theorem c10_autonomous (U : CobraUtil) (m : Model) (pbar : Option PBar)
    (t1 t2 : ℚ) (y : ℚ × ℚ) :
    ((dynamic_system U m pbar t1 y).1).1 = ((dynamic_system U m pbar t2 y).1).1 ∧
    (dynamic_system U m pbar t1 y).2 = (dynamic_system U m pbar t2 y).2 ∧
    dynamic_system U m none t1 y = dynamic_system U m none t2 y :=
  ⟨rfl, rfl, rfl⟩

/-- C6: the evolved state is a 2-vector: the initial condition `y0` has
exactly two components, the state argument of `dynamic_system` is a pair
(biomass, glucose), and the returned derivative vector has exactly one
component per lexicographic objective, i.e. two. -/
theorem c6_two_components (U : CobraUtil) (m : Model) (pbar : Option PBar)
    (t : ℚ) (y : ℚ × ℚ) :
    y0.length = 2 ∧ lexicographic_objectives.length = 2 ∧
    (((dynamic_system U m pbar t y).1).1).length = lexicographic_objectives.length := by
  refine ⟨rfl, rfl, ?_⟩
  show ((lexicographic_fluxes_at U m y).map fun v => v * y.1).length = _
  rw [List.length_map]
  exact U.lex_values_length _ _ _

/-- C3 counterexample: at a concrete oracle reporting the LP exactly
feasible (distance 0) and a concrete state, `infeasible_event` returns
`-1e-6`, which differs from the LP feasibility distance. -/
theorem c3_counterexample :
    (infeasible_event trivialLP mGlc 0 (1, 1)).1 ≠
      lp_feasibility_at trivialLP mGlc (1, 1) := by
  show (0 : ℚ) - infeasible_event_epsilon ≠ 0
  norm_num [infeasible_event_epsilon]

/-- C3 (amended): `infeasible_event(t, y)` returns the LP feasibility
distance computed at the bounds set from `y`, minus the constant offset
`infeasible_event.epsilon = 1e-6` (so it is `-1e-6` when the LP is exactly
feasible, and positive once the infeasibility exceeds epsilon). -/
theorem c3_infeasible_event_value (U : CobraUtil) (m : Model)
    (t : ℚ) (y : ℚ × ℚ) :
    (infeasible_event U m t y).1 =
      lp_feasibility_at U m y - infeasible_event_epsilon := rfl

/-- C5: `infeasible_event` is registered terminal with `direction = 1`;
against the modelled event semantics the integration output is exactly the
trajectory truncated at the first sample where the event value crosses from
negative to nonnegative — so integration never continues past that crossing
and runs to the end when no crossing occurs — and the event value is
nonnegative exactly when the LP feasibility distance has reached
`epsilon`. -/
theorem c5_terminal_event_stops (U : CobraUtil) (m : Model) :
    infeasible_event_direction = 1 ∧
    infeasible_event_terminal = true ∧
    (∀ prev cur : ℚ, event_triggers infeasible_event_direction prev cur =
      (decide (prev < 0) && decide (0 ≤ cur))) ∧
    (∀ (prev : ℚ) (samples : List (ℚ × (ℚ × ℚ))),
      integrate_from infeasible_event_direction infeasible_event_terminal
          (fun t y => (infeasible_event U m t y).1) prev samples =
        match first_crossing infeasible_event_direction
            (fun t y => (infeasible_event U m t y).1) prev samples with
        | none => samples
        | some i => samples.take (i + 1)) ∧
    (∀ (t : ℚ) (y : ℚ × ℚ), 0 ≤ (infeasible_event U m t y).1 ↔
      infeasible_event_epsilon ≤ lp_feasibility_at U m y) := by
  refine ⟨rfl, rfl, fun prev cur => rfl, ?_, ?_⟩
  · intro prev samples
    exact integrate_from_terminal_eq infeasible_event_direction
      (fun t y => (infeasible_event U m t y).1) prev samples
  · intro t y
    show 0 ≤ lp_feasibility_at U m y - infeasible_event_epsilon ↔ _
    constructor <;> intro h <;> linarith

/-- C7: the simulation is run with `y0 = [0.1, 10]` over the time span
`(ts.min(), ts.max()) = (0, 15)`, evaluated at the 100 equally spaced points
`ts = np.linspace(0, 15, 100)` (consecutive spacing `15/99`), and its output
is exactly the solution object returned by the integrator on these
arguments. -/
theorem c7_solve_ivp_call {σ : Type} (I : Integrator σ) (U : CobraUtil)
    (m : Model) :
    y0 = [1 / 10, 10] ∧
    ts = np_linspace 0 15 100 ∧
    ts.length = 100 ∧
    np_min ts = 0 ∧ np_max ts = 15 ∧
    (∀ i : ℕ, i + 1 < ts.length → ts.getD (i + 1) 0 - ts.getD i 0 = 15 / 99) ∧
    sol I U m =
      I.solve_ivp (fun t y => ((dynamic_system U m none t y).1).1)
        [fun t y => (infeasible_event U m t y).1]
        (0, 15) [1 / 10, 10] ts (1 / 1000000) (1 / 100000000) "BDF" := by
  refine ⟨rfl, rfl, ts_length_eq, ts_min_eq, ts_max_eq, ?_, ?_⟩
  · intro i h
    rw [List.getD_eq_getElem ts 0 h,
      List.getD_eq_getElem ts 0 (Nat.lt_of_succ_lt h)]
    exact ts_spacing i h
  · unfold sol
    rw [ts_min_eq, ts_max_eq]
    rfl

/-- C7 witness: the spacing statement evaluated at the first pair of time
points. -/
theorem c7_witness :
    0 + 1 < ts.length ∧ ts.getD (0 + 1) 0 - ts.getD 0 0 = 15 / 99 := by
  have h : 0 + 1 < ts.length := by
    rw [ts_length_eq]
    norm_num
  exact ⟨h,
    (c7_solve_ivp_call trivialIntegrator trivialLP mGlc).2.2.2.2.2.1 0 h⟩

end DFBA
